import Mathlib

/-!
Verification development for the `grafen` substrate generator.

The Rust sources are embedded shallowly: `f64` values become real numbers,
`u64` values become natural numbers (the machine-width reduction is irrelevant
at the sizes the program handles and is noted where a cast occurs),
`Vec<T>` becomes `List T`, and fallible functions return `Except`.

Sections follow the source files: `lattice.rs`, `substrates.rs`, `database.rs`.
Functions of collaborating modules that are not part of the sources
(`coord.rs`, `system.rs`, the `serde` serializer and the Rust standard
library path routines) are modelled from the specification and are marked
`Modelled from the spec:` in their doc comments.
-/

namespace Grafen

noncomputable section

/-- Embedding of `Coord` from `lattice.rs`: a three-dimensional coordinate
with `f64` components embedded as real numbers. -/
structure Coord where
  x : ℝ
  y : ℝ
  z : ℝ

/-- Embedding of `Coord::add`: componentwise addition. -/
def Coord.add (c other : Coord) : Coord :=
  Coord.mk (c.x + other.x) (c.y + other.y) (c.z + other.z)

/-- Embedding of the private `enum LatticeType` from `lattice.rs`. -/
inductive LatticeType where
  | Hexagonal
  | Triclinic

/-- Embedding of the private `struct Crystal` from `lattice.rs`:
two vector lengths, an angle in radians, and a family tag. -/
structure Crystal where
  a : ℝ
  b : ℝ
  gamma : ℝ
  lattice_type : LatticeType

/-- Embedding of `Crystal::hexagonal`: common vector length and a
120-degree angle. -/
def Crystal.hexagonal (a : ℝ) : Crystal :=
  Crystal.mk a a (2 * Real.pi / 3) LatticeType.Hexagonal

/-- Embedding of `Crystal::triclinic`. -/
def Crystal.triclinic (a b gamma : ℝ) : Crystal :=
  Crystal.mk a b gamma LatticeType.Triclinic

/-- Embedding of the private `struct Spacing` from `lattice.rs`. -/
structure Spacing where
  dx : ℝ
  dy : ℝ
  dx_per_row : ℝ

/-- Embedding of `Crystal::spacing`: `dx = a`, `dy = b * sin gamma`,
`dx_per_row = b * cos gamma`. -/
def Crystal.spacing (c : Crystal) : Spacing :=
  Spacing.mk c.a (c.b * Real.sin c.gamma) (c.b * Real.cos c.gamma)

/-- Embedding of `Lattice`: a box size and the list of grid coordinates. -/
structure Lattice where
  box_size : Coord
  coords : List Coord

/-- Embedding of `Lattice::translate`: shift every coordinate, keep the box. -/
def Lattice.translate (l : Lattice) (t : Coord) : Lattice :=
  Lattice.mk l.box_size (l.coords.map (fun c => c.add t))

/-- Embedding of `LatticeBuilder`: a crystal plus accumulated bin counts. -/
structure LatticeBuilder where
  crystal : Crystal
  nx : ℕ
  ny : ℕ

/-- Embedding of `LatticeBuilder::new`: bin counts start at zero. -/
def LatticeBuilder.new (crystal : Crystal) : LatticeBuilder :=
  LatticeBuilder.mk crystal 0 0

/-- Embedding of `LatticeBuilder::from_bins`: store the requested counts. -/
def LatticeBuilder.from_bins (b : LatticeBuilder) (nx ny : ℕ) : LatticeBuilder :=
  LatticeBuilder.mk b.crystal nx ny

/-- Embedding of Rust's `f64::round` on the exact real value: the nearest
integer, rounding half-way cases away from zero. -/
def rustRound (v : ℝ) : ℤ :=
  if 0 ≤ v then ⌊v + 1 / 2⌋ else ⌈v - 1 / 2⌉

/-- Embedding of `LatticeBuilder::from_size`: derive bin counts by rounding
`size / spacing`; the `as u64` cast clamps negative rounds to zero, which
`Int.toNat` reproduces. -/
def LatticeBuilder.from_size (b : LatticeBuilder) (size_x size_y : ℝ) : LatticeBuilder :=
  let s := b.crystal.spacing
  b.from_bins (rustRound (size_x / s.dx)).toNat (rustRound (size_y / s.dy)).toNat

/-- Embedding of the grid formula shared by `LatticeBuilder::generic` and
`LatticeBuilder::hexagonal`: the point of column `col` in row `row`. -/
def gridPoint (s : Spacing) (row col : ℕ) : Coord :=
  Coord.mk ((col : ℝ) * s.dx + (row : ℝ) * s.dx_per_row) ((row : ℝ) * s.dy) 0

/-- Embedding of `LatticeBuilder::generic`: every `(row, col)` pair of the
grid in row-major order. -/
def genericPoints (s : Spacing) (nx ny : ℕ) : List Coord :=
  (List.range ny).flatMap (fun row =>
    (List.range nx).map (fun col => gridPoint s row col))

/-- Embedding of the vacancy filter in `LatticeBuilder::hexagonal`:
a column is kept when `(col + row + 1) % 3 > 0`. -/
def hexKeep (row col : ℕ) : Bool :=
  (col + row + 1) % 3 != 0

/-- Embedding of the point generation in `LatticeBuilder::hexagonal` after
the bin counts have been adjusted: row-major grid with the vacancy filter. -/
def hexPoints (s : Spacing) (nx ny : ℕ) : List Coord :=
  (List.range ny).flatMap (fun row =>
    ((List.range nx).filter (hexKeep row)).map (fun col => gridPoint s row col))

/-- Embedding of `((nx as f64 / 3.0).ceil() * 3.0) as u64` from
`LatticeBuilder::hexagonal`; for natural `nx` the float ceiling of `nx / 3`
is exact and equals the ceiling division `(nx + 2) / 3`. -/
def hexAdjustNx (nx : ℕ) : ℕ :=
  ((nx + 2) / 3) * 3

/-- Embedding of `((ny as f64 / 2.0).ceil() * 2.0) as u64` from
`LatticeBuilder::hexagonal`; the float ceiling of `ny / 2` is exact and
equals the ceiling division `(ny + 1) / 2`. -/
def hexAdjustNy (ny : ℕ) : ℕ :=
  ((ny + 1) / 2) * 2

/-- Embedding of `LatticeBuilder::finalize`: the `Hexagonal` branch first
mutates the stored bin counts to the adjusted values, so both the generated
points and the box size computed afterwards use the adjusted counts;
every other family uses the generic generator with the stored counts. -/
def LatticeBuilder.finalize (b : LatticeBuilder) : Lattice :=
  let s := b.crystal.spacing
  match b.crystal.lattice_type with
  | LatticeType.Hexagonal =>
    let nx := hexAdjustNx b.nx
    let ny := hexAdjustNy b.ny
    Lattice.mk (Coord.mk ((nx : ℝ) * s.dx) ((ny : ℝ) * s.dy) 0) (hexPoints s nx ny)
  | LatticeType.Triclinic =>
    Lattice.mk (Coord.mk ((b.nx : ℝ) * s.dx) ((b.ny : ℝ) * s.dy) 0)
      (genericPoints s b.nx b.ny)

/-- Embedding of `Lattice::hexagonal`: builder over a hexagonal crystal. -/
def Lattice.hexagonal (a : ℝ) : LatticeBuilder :=
  LatticeBuilder.new (Crystal.hexagonal a)

/-- Embedding of `Lattice::triclinic`: builder over a triclinic crystal. -/
def Lattice.triclinic (a b gamma : ℝ) : LatticeBuilder :=
  LatticeBuilder.new (Crystal.triclinic a b gamma)

/-- Embedding of `Atom` from `substrates.rs`. -/
structure Atom where
  residue_name : String
  residue_number : ℕ
  atom_name : String
  atom_number : ℕ
  position : Coord

/-- Embedding of `SubstrateType` from `substrates.rs`. -/
inductive SubstrateType where
  | Graphene
  | Silica

/-- Embedding of `ResidueAtom` from `substrates.rs`. -/
structure ResidueAtom where
  code : String
  position : Coord

/-- Embedding of `ResidueBase` from `substrates.rs`. -/
structure ResidueBase where
  code : String
  atoms : List ResidueAtom

/-- Embedding of `ResidueBase::graphene`: a single carbon atom offset by
half the bond length on every axis. -/
def ResidueBase.graphene (bond_length : ℝ) : ResidueBase :=
  ResidueBase.mk "GRPH"
    [ResidueAtom.mk "C" (Coord.mk (bond_length / 2) (bond_length / 2) (bond_length / 2))]

/-- Embedding of `ResidueBase::silica`: a rigid SiO2 molecule. -/
def ResidueBase.silica (bond_length : ℝ) : ResidueBase :=
  let z0 : ℝ := 0.000
  let dz : ℝ := 0.151
  let base_coord := Coord.mk (bond_length / 4) (bond_length / 6) z0
  ResidueBase.mk "SIO"
    [ResidueAtom.mk "O1" (base_coord.add (Coord.mk 0 0 dz)),
     ResidueAtom.mk "SI" base_coord,
     ResidueAtom.mk "O2" (base_coord.add (Coord.mk 0 0 (-dz)))]

/-- Embedding of `System` from `substrates.rs`. -/
structure System where
  dimensions : Coord
  atoms : List Atom

/-- Embedding of `gen_atom_list` from `substrates.rs`: for every lattice
point (outer loop, `enumerate` supplying `residue_number`) and every atom of
the residue template (inner loop, `enumerate` supplying the offset index),
push one atom; the atom number is `residue.atoms.len() * residue_number`
plus the offset index. -/
def gen_atom_list (coords : List Coord) (residue : ResidueBase) : List Atom :=
  coords.enum.flatMap (fun rp =>
    residue.atoms.enum.map (fun ra =>
      Atom.mk residue.code rp.1 ra.2.code
        (residue.atoms.length * rp.1 + ra.1)
        (rp.2.add ra.2.position)))

/-- Modelled from the spec: `substrates.rs` calls a constructor
`Lattice::from_size(&crystal, size_x, size_y)` that is absent from the
sources (the file `lattice.rs` only exposes the builder interface).
Section 4.2 of the spec describes sizing as deriving bin counts by
`round(size / spacing)` and finalizing, which the builder chain
`new -> from_size -> finalize` implements. -/
def latticeFromSize (crystal : Crystal) (size_x size_y : ℝ) : Lattice :=
  ((LatticeBuilder.new crystal).from_size size_x size_y).finalize

/-- Embedding of `create_graphene` from `substrates.rs`: hexagonal lattice
with the carbon bond length, every point raised by `z0 = bond_length`,
dimensions padded by `2 * z0`. -/
def create_graphene (size_x size_y : ℝ) : System :=
  let bond_length : ℝ := 0.142
  let z0 := bond_length
  let residue_base := ResidueBase.graphene bond_length
  let crystal := Crystal.hexagonal bond_length
  let lattice := (latticeFromSize crystal size_x size_y).translate (Coord.mk 0 0 z0)
  System.mk (lattice.box_size.add (Coord.mk 0 0 (2 * z0)))
    (gen_atom_list lattice.coords residue_base)

/-- Embedding of `create_silica` from `substrates.rs`: triclinic lattice
with spacing 0.45 and a 60-degree angle, every point raised by `z0 = 0.30`. -/
def create_silica (size_x size_y : ℝ) : System :=
  let bond_length : ℝ := 0.450
  let z0 : ℝ := 0.30
  let residue_base := ResidueBase.silica bond_length
  let crystal := Crystal.triclinic bond_length bond_length (60 * Real.pi / 180)
  let lattice := (latticeFromSize crystal size_x size_y).translate (Coord.mk 0 0 z0)
  System.mk (lattice.box_size.add (Coord.mk 0 0 (2 * z0)))
    (gen_atom_list lattice.coords residue_base)

/-- Embedding of the error text in `create_substrate`. -/
def sizeErrorMsg : String :=
  "input sizes of the system have to be positive"

/-- Embedding of `create_substrate` from `substrates.rs`: reject non-positive
requested dimensions, otherwise dispatch on the substrate type. -/
def create_substrate (size : ℝ × ℝ) (substrate_type : SubstrateType) :
    Except String System :=
  if size.1 ≤ 0 ∨ size.2 ≤ 0 then
    Except.error sizeErrorMsg
  else
    Except.ok (match substrate_type with
      | SubstrateType.Graphene => create_graphene size.1 size.2
      | SubstrateType.Silica => create_silica size.1 size.2)

/-- Modelled from the spec: `Residue` lives in `system.rs`, which is not
among the sources. Per section 3 it is a code plus an ordered atom list
with relative positions; the atom records are visible in the unit tests of
`database.rs` as `Atom { code, position }`. -/
structure ResidueDefAtom where
  code : String
  position : Coord

/-- Modelled from the spec: a persisted `Residue` catalog record. -/
structure Residue where
  code : String
  atoms : List ResidueDefAtom

/-- Modelled from the spec: the lattice tag of a surface sheet, visible in
the unit tests of `database.rs` as `LatticeType::Hexagonal { a }`. -/
inductive SheetLattice where
  | hexagonal (a : ℝ)
  | triclinic (a : ℝ) (b : ℝ) (gamma : ℝ)

/-- Modelled from the spec: `volume::Cuboid`, whose fields `name`, `residue`,
`size`, `origin` and `coords` are visible in the unit tests of `database.rs`. -/
structure Cuboid where
  name : Option String
  residue : Option Residue
  origin : Coord
  size : Coord
  coords : List Coord

/-- Modelled from the spec: `volume::Cylinder` with the override fields the
spec names for cylinders (position, radius, height). -/
structure VolCylinder where
  name : Option String
  residue : Option Residue
  origin : Coord
  radius : ℝ
  height : ℝ
  coords : List Coord

/-- Modelled from the spec: `surface::Sheet`, whose fields are visible in
the unit tests of `database.rs`. -/
structure Sheet where
  name : Option String
  residue : Option Residue
  lattice : SheetLattice
  std_z : Option ℝ
  origin : Coord
  length : ℝ
  width : ℝ
  coords : List Coord

/-- Modelled from the spec: `surface::Cylinder` with the override fields the
spec names for cylinders (position, radius, height). -/
structure SurfCylinder where
  name : Option String
  residue : Option Residue
  origin : Coord
  radius : ℝ
  height : ℝ
  coords : List Coord

/-- Embedding of the `ComponentEntry` enum produced by the
`create_entry_wrapper!` macro in `database.rs`: one variant per concrete
component kind. -/
inductive ComponentEntry where
  | VolumeCuboid (object : Cuboid)
  | VolumeCylinder (object : VolCylinder)
  | SurfaceSheet (object : Sheet)
  | SurfaceCylinder (object : SurfCylinder)

namespace ComponentEntry

/-- Embedding of the macro-generated `get_coords`: a view of the variant's
coordinate list. -/
def get_coords : ComponentEntry → List Coord
  | VolumeCuboid o => o.coords
  | VolumeCylinder o => o.coords
  | SurfaceSheet o => o.coords
  | SurfaceCylinder o => o.coords

/-- Embedding of the macro-generated `get_residue`. -/
def get_residue : ComponentEntry → Option Residue
  | VolumeCuboid o => o.residue
  | VolumeCylinder o => o.residue
  | SurfaceSheet o => o.residue
  | SurfaceCylinder o => o.residue

/-- Embedding of the optional name every variant owns. -/
def get_name : ComponentEntry → Option String
  | VolumeCuboid o => o.name
  | VolumeCylinder o => o.name
  | SurfaceSheet o => o.name
  | SurfaceCylinder o => o.name

/-- Modelled from the spec: each variant derives its `box_size` from its own
geometric fields only, never from the coordinate list. The sheet derivation
`(length, width, 0)` matches scenario 4 of the spec; the cuboid reports its
`size` and a cylinder the bounding box of radius and height. The claims
proved below depend only on the fact that no derivation reads `coords`. -/
def box_size : ComponentEntry → Coord
  | VolumeCuboid o => o.size
  | VolumeCylinder o => Coord.mk (2 * o.radius) (2 * o.radius) o.height
  | SurfaceSheet o => Coord.mk o.length o.width 0
  | SurfaceCylinder o => Coord.mk (2 * o.radius) (2 * o.radius) o.height

/-- Replacement of the variant's coordinate list, leaving every other field
of the variant untouched; this is the effect of writing through the
macro-generated `get_coords_mut`. -/
def withCoords : ComponentEntry → List Coord → ComponentEntry
  | VolumeCuboid o, cs => VolumeCuboid (Cuboid.mk o.name o.residue o.origin o.size cs)
  | VolumeCylinder o, cs =>
      VolumeCylinder (VolCylinder.mk o.name o.residue o.origin o.radius o.height cs)
  | SurfaceSheet o, cs =>
      SurfaceSheet (Sheet.mk o.name o.residue o.lattice o.std_z o.origin o.length o.width cs)
  | SurfaceCylinder o, cs =>
      SurfaceCylinder (SurfCylinder.mk o.name o.residue o.origin o.radius o.height cs)

end ComponentEntry

/-- Observer for the variant tag of a `ComponentEntry`. -/
inductive EntryKind where
  | VolumeCuboid
  | VolumeCylinder
  | SurfaceSheet
  | SurfaceCylinder
deriving DecidableEq

/-- The variant tag of a `ComponentEntry`. -/
def ComponentEntry.kind : ComponentEntry → EntryKind
  | ComponentEntry.VolumeCuboid _ => EntryKind.VolumeCuboid
  | ComponentEntry.VolumeCylinder _ => EntryKind.VolumeCylinder
  | ComponentEntry.SurfaceSheet _ => EntryKind.SurfaceSheet
  | ComponentEntry.SurfaceCylinder _ => EntryKind.SurfaceCylinder

/-- Modelled from the spec: the axis fold of `Coord::with_pbc` from
`coord.rs`, which is not among the sources. Per sections 4.4 and the
glossary, the coordinate is reduced modulo the box size into
`[0, box_size)` on each axis, and an axis whose box size is not positive
is left unmodified. -/
def pbcAxis (c size : ℝ) : ℝ :=
  if 0 < size then c - size * (⌊c / size⌋ : ℤ) else c

/-- Modelled from the spec: `Coord::with_pbc`, the axis-wise periodic fold. -/
def Coord.with_pbc (c box : Coord) : Coord :=
  Coord.mk (pbcAxis c.x box.x) (pbcAxis c.y box.y) (pbcAxis c.z box.z)

/-- Embedding of the macro-generated `ComponentEntry::with_pbc` from
`database.rs`: compute the variant's box size once, then fold every
coordinate of the variant in place. -/
def ComponentEntry.with_pbc (e : ComponentEntry) : ComponentEntry :=
  let bs := e.box_size
  e.withCoords (e.get_coords.map (fun c => c.with_pbc bs))

/-- Embedding of `DataBaseError` from `database.rs`. -/
inductive DataBaseError where
  | BadPath

/-- Embedding of `DataBase` from `database.rs`: an optional backing path
(`PathBuf` embedded as a string) and the two ordered definition lists. -/
structure DataBase where
  path : Option String
  residue_defs : List Residue
  component_defs : List ComponentEntry

/-- Embedding of `DataBase::new`. -/
def DataBase.new : DataBase :=
  DataBase.mk none [] []

/-- Modelled from the spec: the final path component, the part of the
string after the last separator. Rust's `Path::file_name`; the model keeps
a path as a plain string and does not normalize trailing separators or
`.`/`..` components beyond rejecting them as file names. -/
def lastComponent (s : String) : List Char :=
  (s.toList.reverse.takeWhile (fun ch => ch ≠ '/')).reverse

/-- Modelled from the spec: the stem of a file name, Rust's documented
`Path::file_stem` rule: everything before the final dot, except that a name
with no dot, or whose only dot leads, is its own stem. -/
def nameStem (name : List Char) : List Char :=
  match name.reverse.dropWhile (fun ch => ch ≠ '.') with
  | [] => name
  | [_] => name
  | _ :: rest => rest.reverse

/-- Modelled from the spec: Rust's `Path::file_stem` on the embedded path
strings: `None` when there is no usable file name. -/
def fileStem (s : String) : Option (List Char) :=
  let name := lastComponent s
  if name = [] ∨ name = ['.'] ∨ name = ['.', '.'] then none
  else some (nameStem name)

/-- Modelled from the spec: Rust's `PathBuf::set_extension("json")` in the
case where a file stem exists: the file name becomes the stem followed by
`.json`, and the leading directories are kept. -/
def setExtensionJson (s : String) : String :=
  String.mk ((s.toList.reverse.dropWhile (fun ch => ch ≠ '/')).reverse
    ++ nameStem (lastComponent s) ++ ('.' :: "json".toList))

/-- Embedding of `DataBase::set_path`: when the candidate has a file stem,
normalize the extension and store the path, otherwise report `BadPath`.
The mutation of `self` is made explicit: the result pairs the returned
`Result` with the database after the call. -/
def DataBase.set_path (db : DataBase) (new_path : String) :
    Except DataBaseError Unit × DataBase :=
  if (fileStem new_path).isSome then
    (Except.ok (), DataBase.mk (some (setExtensionJson new_path)) db.residue_defs
      db.component_defs)
  else
    (Except.error DataBaseError.BadPath, db)

/-- Modelled from the spec: the persisted catalog document, a structured
document with two optional, default-empty list fields; the backing path has
no field at all, embedding the `serde(skip)` attribute on `path`. The
`serde` round trip of the field values themselves is value-faithful by
construction, so the document stores the lists directly. -/
structure CatalogDoc where
  residue_definitions : Option (List Residue)
  component_definitions : Option (List ComponentEntry)

/-- Embedding of `DataBase::to_writer`: serialize the two definition lists;
the path is skipped, so the document has no place for it. -/
def DataBase.to_writer (db : DataBase) : CatalogDoc :=
  CatalogDoc.mk (some db.residue_defs) (some db.component_defs)

/-- Embedding of `DataBase::from_reader`: deserialize a document; a missing
list field defaults to empty (the `serde(default)` attribute) and the
skipped `path` field deserializes to its default, `None`. -/
def DataBase.from_reader (doc : CatalogDoc) : DataBase :=
  DataBase.mk none (doc.residue_definitions.getD []) (doc.component_definitions.getD [])

/-- Embedding of `read_database`: parse the document found at the input
location, then set the owned path to that location. -/
def read_database (from_path : String) (doc : CatalogDoc) : DataBase :=
  let database := DataBase.from_reader doc
  DataBase.mk (some from_path) database.residue_defs database.component_defs

/-- Embedding of `write_database`: writing requires a stored path and emits
the serialized document. -/
def write_database (database : DataBase) : Except String CatalogDoc :=
  match database.path with
  | some _ => Except.ok database.to_writer
  | none => Except.error "No path was set when trying to write the database to disk"

end

/-! Helper lemmas about the generated point lists. -/

/-- Indexing a row-major double loop: element `row * nx + col` of the
flattened grid is the point of row `row`, column `col`. -/
theorem rowMajor_getElem {α : Type} (nx : ℕ) (f : ℕ → ℕ → α) (ny row col : ℕ)
    (hr : row < ny) (hc : col < nx) :
    ((List.range ny).flatMap (fun r => (List.range nx).map (f r)))[row * nx + col]?
      = some (f row col) := by
  induction ny generalizing f row with
  | zero => omega
  | succ n ih =>
    rw [List.range_succ_eq_map, List.flatMap_cons, List.getElem?_append]
    cases row with
    | zero =>
      have hlt : 0 * nx + col < ((List.range nx).map (f 0)).length := by
        simpa using hc
      rw [if_pos hlt]
      simp [List.getElem?_map, List.getElem?_range hc]
    | succ r =>
      have hmul : (r + 1) * nx = r * nx + nx := Nat.succ_mul r nx
      have hge : ¬ ((r + 1) * nx + col < ((List.range nx).map (f 0)).length) := by
        simp only [List.length_map, List.length_range]
        omega
      rw [if_neg hge]
      have hidx : (r + 1) * nx + col - ((List.range nx).map (f 0)).length
          = r * nx + col := by
        simp only [List.length_map, List.length_range]
        omega
      rw [hidx, List.flatMap_map]
      exact ih (fun a => f (a + 1)) r (by omega)

/-- The generic generator emits `ny * nx` points. -/
theorem genericPoints_length (s : Spacing) (nx ny : ℕ) :
    (genericPoints s nx ny).length = ny * nx := by
  simp [genericPoints, List.length_flatMap, Function.comp_def, List.map_const',
    List.sum_replicate, smul_eq_mul]

/-- The vacancy filter keeps exactly two of any three consecutive columns. -/
theorem filter_hexKeep_triple (row k : ℕ) :
    (List.filter (hexKeep row) [3 * k, 3 * k + 1, 3 * k + 2]).length = 2 := by
  have e1 : (3 * k + row + 1) % 3 = (row + 1) % 3 := by omega
  have e2 : (3 * k + 1 + row + 1) % 3 = (row + 2) % 3 := by omega
  have e3 : (3 * k + 2 + row + 1) % 3 = row % 3 := by omega
  have h3 : row % 3 = 0 ∨ row % 3 = 1 ∨ row % 3 = 2 := by omega
  rcases h3 with h | h | h
  · have a1 : (row + 1) % 3 = 1 := by omega
    have a2 : (row + 2) % 3 = 2 := by omega
    simp [hexKeep, List.filter_cons, e1, e2, e3, a1, a2, h]
  · have a1 : (row + 1) % 3 = 2 := by omega
    have a2 : (row + 2) % 3 = 0 := by omega
    simp [hexKeep, List.filter_cons, e1, e2, e3, a1, a2, h]
  · have a1 : (row + 1) % 3 = 0 := by omega
    have a2 : (row + 2) % 3 = 1 := by omega
    simp [hexKeep, List.filter_cons, e1, e2, e3, a1, a2, h]

/-- In a row of `3 * k` columns the vacancy filter keeps `2 * k` of them,
in every row. -/
theorem filter_hexKeep_length (row k : ℕ) :
    ((List.range (3 * k)).filter (hexKeep row)).length = 2 * k := by
  induction k with
  | zero => simp
  | succ m ih =>
    have hr : List.range (3 * (m + 1))
        = List.range (3 * m) ++ [3 * m, 3 * m + 1, 3 * m + 2] := by
      have h : 3 * (m + 1) = 3 * m + 1 + 1 + 1 := by ring
      rw [h, List.range_succ, List.range_succ, List.range_succ]
      simp
    rw [hr, List.filter_append, List.length_append, ih, filter_hexKeep_triple]
    ring

/-- When the column count is a multiple of three the hexagonal generator
keeps exactly two thirds of the grid. -/
theorem hexPoints_length (s : Spacing) (nx ny : ℕ) (h : nx % 3 = 0) :
    3 * (hexPoints s nx ny).length = 2 * (nx * ny) := by
  obtain ⟨k, rfl⟩ : ∃ k, nx = 3 * k := ⟨nx / 3, by omega⟩
  simp only [hexPoints, List.length_flatMap]
  have hmap : List.map
      (List.length ∘ fun row =>
        ((List.range (3 * k)).filter (hexKeep row)).map (gridPoint s row))
      (List.range ny) = List.map (fun _ => 2 * k) (List.range ny) := by
    apply List.map_congr_left
    intro row _
    simp [Function.comp_def, filter_hexKeep_length]
  rw [hmap]
  simp [List.map_const', List.sum_replicate, smul_eq_mul]
  ring

/-! Claim theorems. -/

/-- C6: for every Generic-family (triclinic) builder finalized with bin
counts `(nx, ny)`, the lattice has exactly `nx * ny` points, the point at
row-major index `row * nx + col` is
`(col * dx + row * dx_per_row, row * dy, 0)`, and the box size is
`(nx * dx, ny * dy, 0)`. -/
theorem generic_finalize_spec (c : Crystal)
    (hT : c.lattice_type = LatticeType.Triclinic) (nx ny : ℕ) :
    (((LatticeBuilder.new c).from_bins nx ny).finalize).coords.length = nx * ny ∧
    (∀ row col : ℕ, row < ny → col < nx →
      (((LatticeBuilder.new c).from_bins nx ny).finalize).coords[row * nx + col]?
        = some (Coord.mk ((col : ℝ) * c.spacing.dx + (row : ℝ) * c.spacing.dx_per_row)
            ((row : ℝ) * c.spacing.dy) 0)) ∧
    (((LatticeBuilder.new c).from_bins nx ny).finalize).box_size
      = Coord.mk ((nx : ℝ) * c.spacing.dx) ((ny : ℝ) * c.spacing.dy) 0 := by
  obtain ⟨a, b, g, lt⟩ := c
  have hT' : lt = LatticeType.Triclinic := hT
  subst hT'
  refine ⟨?_, ?_, rfl⟩
  · have h := genericPoints_length (Crystal.mk a b g LatticeType.Triclinic).spacing nx ny
    simpa [LatticeBuilder.finalize, LatticeBuilder.new, LatticeBuilder.from_bins,
      Nat.mul_comm] using h
  · intro row col hr hc
    exact rowMajor_getElem nx
      (fun r cl => gridPoint (Crystal.mk a b g LatticeType.Triclinic).spacing r cl)
      ny row col hr hc

/-- C6 witness: instantiation at the crystal of the repository's own
triclinic unit test, a 3-by-2 lattice. -/
theorem generic_finalize_spec_witness :
    ((((LatticeBuilder.new (Crystal.triclinic 1 1 (Real.pi / 3))).from_bins 3 2).finalize)).coords.length
      = 3 * 2 ∧
    ((((LatticeBuilder.new (Crystal.triclinic 1 1 (Real.pi / 3))).from_bins 3 2).finalize)).box_size
      = Coord.mk ((3 : ℕ) * (Crystal.triclinic 1 1 (Real.pi / 3)).spacing.dx)
          (((2 : ℕ)) * (Crystal.triclinic 1 1 (Real.pi / 3)).spacing.dy) 0 := by
  have h := generic_finalize_spec (Crystal.triclinic 1 1 (Real.pi / 3)) rfl 3 2
  exact ⟨h.1, h.2.2⟩

/-- C7: building via `from_size(sx, sy)` and finalizing equals building via
`from_bins` of the rounded size-to-spacing ratios and finalizing, where the
rounding is round-half-away-from-zero (characterized below by its value on
non-negative inputs and its odd symmetry, which forces ties away from
zero). -/
theorem from_size_eq_from_bins_round (c : Crystal) (sx sy : ℝ) :
    ((LatticeBuilder.new c).from_size sx sy).finalize
      = ((LatticeBuilder.new c).from_bins (rustRound (sx / c.spacing.dx)).toNat
          (rustRound (sy / c.spacing.dy)).toNat).finalize ∧
    (∀ v : ℝ, 0 ≤ v → rustRound v = ⌊v + 1 / 2⌋) ∧
    (∀ v : ℝ, rustRound (-v) = -rustRound v) := by
  refine ⟨rfl, fun v hv => by rw [rustRound, if_pos hv], fun v => ?_⟩
  by_cases hv : 0 ≤ v
  · rcases eq_or_lt_of_le hv with hv0 | hv0
    · simp [rustRound, ← hv0]
      norm_num
    · have hneg : ¬ (0 ≤ -v) := by linarith
      rw [rustRound, rustRound, if_pos hv, if_neg hneg]
      rw [show -v - 1 / 2 = -(v + 1 / 2) by ring, Int.ceil_neg]
  · have hpos : 0 ≤ -v := by linarith
    rw [rustRound, rustRound, if_pos hpos, if_neg hv]
    rw [show v - 1 / 2 = -(-v + 1 / 2) by ring, Int.ceil_neg]
    ring

/-- C7 witness: the rounding branch applied at the tie `5 / 2`, which is
rounded up to `3`, away from zero. -/
theorem from_size_eq_from_bins_round_witness :
    (0 : ℝ) ≤ 5 / 2 ∧ rustRound ((5 : ℝ) / 2) = ⌊(5 : ℝ) / 2 + 1 / 2⌋ ∧
      rustRound ((5 : ℝ) / 2) = 3 := by
  have h := (from_size_eq_from_bins_round (Crystal.hexagonal 1) 0 0).2.1 ((5 : ℝ) / 2)
    (by norm_num)
  refine ⟨by norm_num, h, ?_⟩
  rw [h]
  rw [show (5 : ℝ) / 2 + 1 / 2 = 3 by norm_num]
  exact_mod_cast Int.floor_intCast 3

/-- C1: a Hexagonal-family builder finalized with requested counts
`(nx, ny)` first replaces them by the smallest multiple of 3 at least `nx`
and the smallest multiple of 2 at least `ny`, then emits the row-major grid
with every point where `(col + row + 1) % 3 == 0` dropped, so the point
count is two thirds of the adjusted grid, the box size is computed from the
adjusted counts, and finalizing `from_bins(4, 1)` equals finalizing
`from_bins(6, 2)`. -/
theorem hexagonal_finalize_spec (c : Crystal)
    (hH : c.lattice_type = LatticeType.Hexagonal) (nx ny : ℕ) :
    (nx ≤ hexAdjustNx nx ∧ hexAdjustNx nx % 3 = 0 ∧
      ∀ m : ℕ, m % 3 = 0 → nx ≤ m → hexAdjustNx nx ≤ m) ∧
    (ny ≤ hexAdjustNy ny ∧ hexAdjustNy ny % 2 = 0 ∧
      ∀ m : ℕ, m % 2 = 0 → ny ≤ m → hexAdjustNy ny ≤ m) ∧
    (((LatticeBuilder.new c).from_bins nx ny).finalize).coords
      = (List.range (hexAdjustNy ny)).flatMap (fun row =>
          ((List.range (hexAdjustNx nx)).filter
              (fun col => (col + row + 1) % 3 != 0)).map
            (fun col : ℕ =>
              Coord.mk ((col : ℝ) * c.spacing.dx + (row : ℝ) * c.spacing.dx_per_row)
                ((row : ℝ) * c.spacing.dy) 0)) ∧
    3 * (((LatticeBuilder.new c).from_bins nx ny).finalize).coords.length
      = 2 * (hexAdjustNx nx * hexAdjustNy ny) ∧
    (((LatticeBuilder.new c).from_bins nx ny).finalize).box_size
      = Coord.mk ((hexAdjustNx nx : ℝ) * c.spacing.dx)
          ((hexAdjustNy ny : ℝ) * c.spacing.dy) 0 ∧
    ((LatticeBuilder.new c).from_bins 4 1).finalize
      = ((LatticeBuilder.new c).from_bins 6 2).finalize := by
  obtain ⟨a, b, g, lt⟩ := c
  have hH' : lt = LatticeType.Hexagonal := hH
  subst hH'
  refine ⟨⟨?_, ?_, ?_⟩, ⟨?_, ?_, ?_⟩, ?_, ?_, rfl, ?_⟩
  · unfold hexAdjustNx; omega
  · unfold hexAdjustNx; omega
  · intro m hm hle; unfold hexAdjustNx; omega
  · unfold hexAdjustNy; omega
  · unfold hexAdjustNy; omega
  · intro m hm hle; unfold hexAdjustNy; omega
  · rfl
  · exact hexPoints_length (Crystal.mk a b g LatticeType.Hexagonal).spacing
      (hexAdjustNx nx) (hexAdjustNy ny) (by unfold hexAdjustNx; omega)
  · show Lattice.mk _ (hexPoints _ (hexAdjustNx 4) (hexAdjustNy 1))
      = Lattice.mk _ (hexPoints _ (hexAdjustNx 6) (hexAdjustNy 2))
    simp only [LatticeBuilder.new, LatticeBuilder.from_bins]
    norm_num [hexAdjustNx, hexAdjustNy]

/-- C1 witness: instantiation at the crystal of the repository's own
periodicity unit test, requesting a 4-by-1 hexagonal lattice. -/
theorem hexagonal_finalize_spec_witness :
    (4 ≤ hexAdjustNx 4 ∧ hexAdjustNx 4 % 3 = 0) ∧
    3 * (((LatticeBuilder.new (Crystal.hexagonal 1)).from_bins 4 1).finalize).coords.length
      = 2 * (hexAdjustNx 4 * hexAdjustNy 1) ∧
    ((LatticeBuilder.new (Crystal.hexagonal 1)).from_bins 4 1).finalize
      = ((LatticeBuilder.new (Crystal.hexagonal 1)).from_bins 6 2).finalize := by
  have h := hexagonal_finalize_spec (Crystal.hexagonal 1) rfl 4 1
  exact ⟨⟨h.1.1, h.1.2.1⟩, h.2.2.2.1, h.2.2.2.2.2⟩

/-- Atom instantiation over an enumeration starting at offset `k`: the
entry at row-major index `i * m + j` is the atom of lattice point `i` and
template offset `j`, with the residue number shifted by the offset. -/
theorem gen_atom_list_aux (res : ResidueBase) (coords : List Coord) :
    ∀ (k i j : ℕ) (c : Coord) (a : ResidueAtom),
      coords[i]? = some c → res.atoms[j]? = some a →
      ((List.enumFrom k coords).flatMap (fun rp =>
        res.atoms.enum.map (fun ra =>
          Atom.mk res.code rp.1 ra.2.code (res.atoms.length * rp.1 + ra.1)
            (rp.2.add ra.2.position))))[i * res.atoms.length + j]?
        = some (Atom.mk res.code (k + i) a.code (res.atoms.length * (k + i) + j)
            (c.add a.position)) := by
  induction coords with
  | nil =>
    intro k i j c a hc _
    simp at hc
  | cons d ds ih =>
    intro k i j c a hc ha
    have hj : j < res.atoms.length := (List.getElem?_eq_some.mp ha).1
    rw [List.enumFrom_cons, List.flatMap_cons, List.getElem?_append]
    cases i with
    | zero =>
      have hlt : 0 * res.atoms.length + j
          < ((res.atoms.enum.map (fun ra =>
              Atom.mk res.code k ra.2.code (res.atoms.length * k + ra.1)
                (d.add ra.2.position)))).length := by
        simp [List.enum_length]
        omega
      rw [if_pos hlt]
      have he : res.atoms.enum[0 * res.atoms.length + j]? = some (j, a) := by
        have : (0 : ℕ) * res.atoms.length + j = j := by omega
        rw [this]
        show (List.enumFrom 0 res.atoms)[j]? = some (j, a)
        rw [List.getElem?_enumFrom, ha]
        simp
      rw [List.getElem?_map, he]
      have hd : d = c := by simpa using hc
      subst hd
      simp
    | succ i' =>
      have hrow : ((res.atoms.enum.map (fun ra =>
          Atom.mk res.code k ra.2.code (res.atoms.length * k + ra.1)
            (d.add ra.2.position)))).length = res.atoms.length := by
        simp [List.enum_length]
      have hmul : (i' + 1) * res.atoms.length = i' * res.atoms.length + res.atoms.length :=
        Nat.succ_mul i' res.atoms.length
      have hge : ¬ ((i' + 1) * res.atoms.length + j
          < ((res.atoms.enum.map (fun ra =>
              Atom.mk res.code k ra.2.code (res.atoms.length * k + ra.1)
                (d.add ra.2.position)))).length) := by
        rw [hrow]
        omega
      rw [if_neg hge, hrow]
      have hidx : (i' + 1) * res.atoms.length + j - res.atoms.length
          = i' * res.atoms.length + j := by omega
      rw [hidx]
      have hc' : ds[i']? = some c := by simpa using hc
      have hk : k + (i' + 1) = (k + 1) + i' := by omega
      rw [hk]
      exact ih (k + 1) i' j c a hc' ha

/-- C2: atom instantiation emits one atom per (lattice point, template
offset) pair, lattice points outer and template offsets inner, so the atom
of point `i` and offset `j` sits at row-major index `i * m + j`, carries
`residue_number = i`, `atom_number = i * m + j` with `m` the template size,
and `position = point + offset`. -/
theorem gen_atom_list_spec (coords : List Coord) (res : ResidueBase) :
    (gen_atom_list coords res).length = coords.length * res.atoms.length ∧
    ∀ (i j : ℕ) (c : Coord) (a : ResidueAtom),
      coords[i]? = some c → res.atoms[j]? = some a →
      (gen_atom_list coords res)[i * res.atoms.length + j]?
        = some (Atom.mk res.code i a.code (i * res.atoms.length + j)
            (c.add a.position)) := by
  constructor
  · simp [gen_atom_list, List.length_flatMap, Function.comp_def, List.enum_length,
      List.map_const', List.sum_replicate, smul_eq_mul]
  · intro i j c a hc ha
    have h := gen_atom_list_aux res coords 0 i j c a hc ha
    rw [Nat.zero_add, Nat.mul_comm res.atoms.length i] at h
    exact h

/-- C2 witness: a one-point lattice instantiated against the graphene
template; the single atom has residue number 0, atom number 0, and the
summed position. -/
theorem gen_atom_list_spec_witness :
    ([Coord.mk 1 2 3][0]? = some (Coord.mk 1 2 3)) ∧
    ((ResidueBase.graphene 1).atoms[0]?
      = some (ResidueAtom.mk "C" (Coord.mk (1 / 2) (1 / 2) (1 / 2)))) ∧
    (gen_atom_list [Coord.mk 1 2 3] (ResidueBase.graphene 1))[0 * (ResidueBase.graphene 1).atoms.length + 0]?
      = some (Atom.mk (ResidueBase.graphene 1).code 0
          (ResidueAtom.mk "C" (Coord.mk (1 / 2) (1 / 2) (1 / 2))).code
          (0 * (ResidueBase.graphene 1).atoms.length + 0)
          ((Coord.mk 1 2 3).add (ResidueAtom.mk "C" (Coord.mk (1 / 2) (1 / 2) (1 / 2))).position)) := by
  refine ⟨rfl, rfl, ?_⟩
  exact (gen_atom_list_spec [Coord.mk 1 2 3] (ResidueBase.graphene 1)).2 0 0
    (Coord.mk 1 2 3) (ResidueAtom.mk "C" (Coord.mk (1 / 2) (1 / 2) (1 / 2))) rfl rfl

/-- The axis fold lands in `[0, size)` whenever the size is positive. -/
theorem pbcAxis_mem (c size : ℝ) (h : 0 < size) :
    0 ≤ pbcAxis c size ∧ pbcAxis c size < size := by
  have hne : size ≠ 0 := ne_of_gt h
  have heq : pbcAxis c size = size * Int.fract (c / size) := by
    rw [pbcAxis, if_pos h, Int.fract]
    field_simp
  constructor
  · rw [heq]
    exact mul_nonneg (le_of_lt h) (Int.fract_nonneg _)
  · rw [heq]
    calc size * Int.fract (c / size) < size * 1 :=
          (mul_lt_mul_left h).mpr (Int.fract_lt_one _)
    _ = size := mul_one size

/-- The axis fold fixes values already inside `[0, size)`. -/
theorem pbcAxis_fix (c size : ℝ) (h : 0 < size) (h0 : 0 ≤ c) (h1 : c < size) :
    pbcAxis c size = c := by
  have hfl : ⌊c / size⌋ = 0 := by
    rw [Int.floor_eq_zero_iff]
    constructor
    · exact div_nonneg h0 (le_of_lt h)
    · rw [div_lt_one h]; exact h1
  rw [pbcAxis, if_pos h, hfl]
  ring

/-- The axis fold is idempotent. -/
theorem pbcAxis_idem (c size : ℝ) :
    pbcAxis (pbcAxis c size) size = pbcAxis c size := by
  by_cases h : 0 < size
  · obtain ⟨h0, h1⟩ := pbcAxis_mem c size h
    exact pbcAxis_fix _ size h h0 h1
  · rw [pbcAxis, if_neg h]

/-- The coordinate fold is idempotent. -/
theorem Coord.with_pbc_idem (c box : Coord) :
    (c.with_pbc box).with_pbc box = c.with_pbc box := by
  simp [Coord.with_pbc, pbcAxis_idem]

/-- Replacing the coordinate list leaves the coordinate view at the new
list. -/
theorem ComponentEntry.get_coords_withCoords (e : ComponentEntry) (cs : List Coord) :
    (e.withCoords cs).get_coords = cs := by
  cases e <;> rfl

/-- Replacing the coordinate list never changes the derived box size. -/
theorem ComponentEntry.box_size_withCoords (e : ComponentEntry) (cs : List Coord) :
    (e.withCoords cs).box_size = e.box_size := by
  cases e <;> rfl

/-- Replacing the coordinate list never changes the optional name. -/
theorem ComponentEntry.get_name_withCoords (e : ComponentEntry) (cs : List Coord) :
    (e.withCoords cs).get_name = e.get_name := by
  cases e <;> rfl

/-- Replacing the coordinate list never changes the optional residue. -/
theorem ComponentEntry.get_residue_withCoords (e : ComponentEntry) (cs : List Coord) :
    (e.withCoords cs).get_residue = e.get_residue := by
  cases e <;> rfl

/-- Replacing the coordinate list never changes the variant tag. -/
theorem ComponentEntry.kind_withCoords (e : ComponentEntry) (cs : List Coord) :
    (e.withCoords cs).kind = e.kind := by
  cases e <;> rfl

/-- Replacing the coordinate list twice keeps only the second list. -/
theorem ComponentEntry.withCoords_withCoords (e : ComponentEntry) (cs ds : List Coord) :
    ((e.withCoords cs).withCoords ds) = e.withCoords ds := by
  cases e <;> rfl

/-- C3: after `with_pbc` every coordinate lies in `[0, box_size_axis)` on
each axis with a strictly positive box component, an axis whose box
component is 0 keeps all its coordinate values, and applying `with_pbc` a
second time changes nothing. -/
theorem with_pbc_spec (e : ComponentEntry) :
    (∀ c ∈ (e.with_pbc).get_coords,
      (0 < e.box_size.x → 0 ≤ c.x ∧ c.x < e.box_size.x) ∧
      (0 < e.box_size.y → 0 ≤ c.y ∧ c.y < e.box_size.y) ∧
      (0 < e.box_size.z → 0 ≤ c.z ∧ c.z < e.box_size.z)) ∧
    (e.box_size.x = 0 →
      (e.with_pbc).get_coords.map Coord.x = e.get_coords.map Coord.x) ∧
    (e.box_size.y = 0 →
      (e.with_pbc).get_coords.map Coord.y = e.get_coords.map Coord.y) ∧
    (e.box_size.z = 0 →
      (e.with_pbc).get_coords.map Coord.z = e.get_coords.map Coord.z) ∧
    e.with_pbc.with_pbc = e.with_pbc := by
  refine ⟨?_, ?_, ?_, ?_, ?_⟩
  · intro c hc
    rw [ComponentEntry.with_pbc, ComponentEntry.get_coords_withCoords] at hc
    obtain ⟨c0, _, rfl⟩ := List.mem_map.mp hc
    exact ⟨fun hx => pbcAxis_mem c0.x e.box_size.x hx,
      fun hy => pbcAxis_mem c0.y e.box_size.y hy,
      fun hz => pbcAxis_mem c0.z e.box_size.z hz⟩
  · intro hx
    rw [ComponentEntry.with_pbc, ComponentEntry.get_coords_withCoords, List.map_map]
    apply List.map_congr_left
    intro c0 _
    simp [Function.comp_def, Coord.with_pbc, pbcAxis, hx]
  · intro hy
    rw [ComponentEntry.with_pbc, ComponentEntry.get_coords_withCoords, List.map_map]
    apply List.map_congr_left
    intro c0 _
    simp [Function.comp_def, Coord.with_pbc, pbcAxis, hy]
  · intro hz
    rw [ComponentEntry.with_pbc, ComponentEntry.get_coords_withCoords, List.map_map]
    apply List.map_congr_left
    intro c0 _
    simp [Function.comp_def, Coord.with_pbc, pbcAxis, hz]
  · rw [ComponentEntry.with_pbc, ComponentEntry.with_pbc,
      ComponentEntry.box_size_withCoords, ComponentEntry.get_coords_withCoords,
      ComponentEntry.withCoords_withCoords, List.map_map]
    congr 1
    apply List.map_congr_left
    intro c0 _
    exact Coord.with_pbc_idem c0 e.box_size

/-- C3 witness: the sheet of the repository's `with_pbc` unit test, with box
`(2, 1, 0)`; its z axis has box component 0 and is untouched, and a second
fold changes nothing. -/
theorem with_pbc_spec_witness :
    ((ComponentEntry.SurfaceSheet (Sheet.mk none none (SheetLattice.hexagonal 0.1) none
        (Coord.mk 0 0 0) 2 1
        [Coord.mk 0.5 0 0, Coord.mk 1.5 0 0, Coord.mk 2.5 0 0,
          Coord.mk 0 1.5 0])).box_size.z = 0) ∧
    (((ComponentEntry.SurfaceSheet (Sheet.mk none none (SheetLattice.hexagonal 0.1) none
        (Coord.mk 0 0 0) 2 1
        [Coord.mk 0.5 0 0, Coord.mk 1.5 0 0, Coord.mk 2.5 0 0,
          Coord.mk 0 1.5 0])).with_pbc).get_coords.map Coord.z
      = (ComponentEntry.SurfaceSheet (Sheet.mk none none (SheetLattice.hexagonal 0.1) none
        (Coord.mk 0 0 0) 2 1
        [Coord.mk 0.5 0 0, Coord.mk 1.5 0 0, Coord.mk 2.5 0 0,
          Coord.mk 0 1.5 0])).get_coords.map Coord.z) ∧
    ((ComponentEntry.SurfaceSheet (Sheet.mk none none (SheetLattice.hexagonal 0.1) none
        (Coord.mk 0 0 0) 2 1
        [Coord.mk 0.5 0 0, Coord.mk 1.5 0 0, Coord.mk 2.5 0 0,
          Coord.mk 0 1.5 0])).with_pbc.with_pbc
      = (ComponentEntry.SurfaceSheet (Sheet.mk none none (SheetLattice.hexagonal 0.1) none
        (Coord.mk 0 0 0) 2 1
        [Coord.mk 0.5 0 0, Coord.mk 1.5 0 0, Coord.mk 2.5 0 0,
          Coord.mk 0 1.5 0])).with_pbc) := by
  have h := with_pbc_spec (ComponentEntry.SurfaceSheet
    (Sheet.mk none none (SheetLattice.hexagonal 0.1) none (Coord.mk 0 0 0) 2 1
      [Coord.mk 0.5 0 0, Coord.mk 1.5 0 0, Coord.mk 2.5 0 0, Coord.mk 0 1.5 0]))
  exact ⟨rfl, h.2.2.2.1 rfl, h.2.2.2.2⟩

/-- C10: `with_pbc` only replaces the coordinate list, folding each
coordinate in place; the variant tag, the optional name, the optional
residue, the derived box size (a function of the kind-specific geometric
fields only) and the coordinate count are unchanged. -/
theorem with_pbc_frame (e : ComponentEntry) :
    e.with_pbc = e.withCoords (e.get_coords.map (fun c => c.with_pbc e.box_size)) ∧
    (e.with_pbc).get_coords = e.get_coords.map (fun c => c.with_pbc e.box_size) ∧
    (e.with_pbc).get_coords.length = e.get_coords.length ∧
    (e.with_pbc).kind = e.kind ∧
    (e.with_pbc).get_name = e.get_name ∧
    (e.with_pbc).get_residue = e.get_residue ∧
    (e.with_pbc).box_size = e.box_size := by
  refine ⟨rfl, ?_, ?_, ?_, ?_, ?_, ?_⟩
  · rw [ComponentEntry.with_pbc, ComponentEntry.get_coords_withCoords]
  · rw [ComponentEntry.with_pbc, ComponentEntry.get_coords_withCoords, List.length_map]
  · rw [ComponentEntry.with_pbc, ComponentEntry.kind_withCoords]
  · rw [ComponentEntry.with_pbc, ComponentEntry.get_name_withCoords]
  · rw [ComponentEntry.with_pbc, ComponentEntry.get_residue_withCoords]
  · rw [ComponentEntry.with_pbc, ComponentEntry.box_size_withCoords]

/-- C4: saving a `DataBase` and loading from the same location reproduces
the residue and component definition lists by value, the written document
is independent of the original path (the path is never written), and the
loaded path equals the load location rather than the original path. -/
theorem database_round_trip (db : DataBase) (p : Option String) (loc : String) :
    (read_database loc db.to_writer).residue_defs = db.residue_defs ∧
    (read_database loc db.to_writer).component_defs = db.component_defs ∧
    (read_database loc db.to_writer).path = some loc ∧
    (DataBase.mk p db.residue_defs db.component_defs).to_writer = db.to_writer := by
  exact ⟨rfl, rfl, rfl, rfl⟩

/-- C8: `set_path` succeeds exactly when the candidate has a file stem; on
success it stores the candidate with its extension normalized to the
catalog suffix, on failure it reports `BadPath` and leaves the database,
and in particular its previously stored path, untouched; the empty
candidate fails. -/
theorem set_path_spec (db : DataBase) (cand : String) :
    ((db.set_path cand).1 = Except.ok () ↔ (fileStem cand).isSome) ∧
    ((fileStem cand).isSome →
      (db.set_path cand).2
        = DataBase.mk (some (setExtensionJson cand)) db.residue_defs db.component_defs) ∧
    (fileStem cand = none →
      (db.set_path cand).1 = Except.error DataBaseError.BadPath ∧
        (db.set_path cand).2 = db) ∧
    ((db.set_path "").1 = Except.error DataBaseError.BadPath ∧
      (db.set_path "").2.path = db.path) := by
  refine ⟨?_, ?_, ?_, ?_, ?_⟩
  · constructor
    · intro h
      by_contra hn
      rw [DataBase.set_path, if_neg hn] at h
      exact Except.noConfusion h
    · intro h
      rw [DataBase.set_path, if_pos h]
  · intro h
    rw [DataBase.set_path, if_pos h]
  · intro h
    have hn : ¬ (fileStem cand).isSome = true := by
      rw [h]; simp
    rw [DataBase.set_path, if_neg hn]
    exact ⟨rfl, rfl⟩
  · have hn : ¬ (fileStem "").isSome = true := by
      rw [show fileStem "" = none from rfl]; simp
    rw [DataBase.set_path, if_neg hn]
  · rfl

/-- C8 witness: the repository's own path tests: `set_path "test"` stores
`test.json`, and `set_path ""` on a database whose path is
`unchanged.json` fails with `BadPath` and keeps that path. -/
theorem set_path_spec_witness :
    ((fileStem "test").isSome ∧
      ((DataBase.mk (some "unchanged.json") [] []).set_path "test").2
        = DataBase.mk (some "test.json") [] []) ∧
    (((DataBase.mk (some "unchanged.json") [] []).set_path "").1
        = Except.error DataBaseError.BadPath ∧
      ((DataBase.mk (some "unchanged.json") [] []).set_path "").2.path
        = some "unchanged.json") := by
  have h := set_path_spec (DataBase.mk (some "unchanged.json") [] []) "test"
  refine ⟨⟨rfl, ?_⟩, h.2.2.2⟩
  have h2 := h.2.1 rfl
  rw [h2]
  rfl

/-- C9: substrate generation fails with the size error whenever a requested
dimension is not strictly positive, and succeeds (returning a system, hence
not the size error) whenever both dimensions are strictly positive. -/
theorem create_substrate_size_spec (sx sy : ℝ) (t : SubstrateType) :
    (sx ≤ 0 ∨ sy ≤ 0 → create_substrate (sx, sy) t = Except.error sizeErrorMsg) ∧
    (0 < sx → 0 < sy → ∃ sys, create_substrate (sx, sy) t = Except.ok sys) := by
  constructor
  · intro h
    unfold create_substrate
    rw [if_pos h]
  · intro hx hy
    have h : ¬ ((sx, sy).1 ≤ 0 ∨ (sx, sy).2 ≤ 0) := by
      push_neg
      exact ⟨hx, hy⟩
    exact ⟨_, by unfold create_substrate; rw [if_neg h]⟩

/-- C9 witness: a negative width is rejected with the size error, and the
unit square request succeeds. -/
theorem create_substrate_size_spec_witness :
    ((-1 : ℝ) ≤ 0 ∨ (1 : ℝ) ≤ 0) ∧
    create_substrate (-1, 1) SubstrateType.Graphene = Except.error sizeErrorMsg ∧
    (0 : ℝ) < 1 ∧
    (∃ sys, create_substrate (1, 1) SubstrateType.Graphene = Except.ok sys) := by
  refine ⟨Or.inl (by norm_num), ?_, by norm_num, ?_⟩
  · exact (create_substrate_size_spec (-1) 1 SubstrateType.Graphene).1
      (Or.inl (by norm_num))
  · exact (create_substrate_size_spec 1 1 SubstrateType.Graphene).2
      (by norm_num) (by norm_num)

/-! Concrete evaluation of the graphene pipeline at the unit square. -/

/-- A lower bound for the square root of three. -/
theorem sqrt_three_gt : (1.7320 : ℝ) < Real.sqrt 3 :=
  (Real.lt_sqrt (by norm_num)).mpr (by norm_num)

/-- An upper bound for the square root of three. -/
theorem sqrt_three_lt : Real.sqrt 3 < (1.7321 : ℝ) :=
  (Real.sqrt_lt' (by norm_num)).mpr (by norm_num)

/-- The sine of the hexagonal crystal angle. -/
theorem sin_two_pi_div_three : Real.sin (2 * Real.pi / 3) = Real.sqrt 3 / 2 := by
  rw [show (2 : ℝ) * Real.pi / 3 = Real.pi - Real.pi / 3 by ring, Real.sin_pi_sub,
    Real.sin_pi_div_three]

/-- The requested width of 1.0 spans 7 columns of the graphene lattice. -/
theorem rustRound_graphene_cols : rustRound ((1 : ℝ) / 0.142) = 7 := by
  rw [rustRound, if_pos (by norm_num : (0 : ℝ) ≤ 1 / 0.142)]
  refine Int.floor_eq_iff.mpr ⟨?_, ?_⟩ <;> norm_num

/-- The requested depth of 1.0 spans 8 rows of the graphene lattice. -/
theorem rustRound_graphene_rows :
    rustRound ((1 : ℝ) / (0.142 * (Real.sqrt 3 / 2))) = 8 := by
  have h1 := sqrt_three_gt
  have h2 := sqrt_three_lt
  have hu : (0 : ℝ) < 0.142 * (Real.sqrt 3 / 2) := by nlinarith
  rw [rustRound, if_pos (le_of_lt (by positivity))]
  refine Int.floor_eq_iff.mpr ⟨?_, ?_⟩
  · have hb : (7.5 : ℝ) * (0.142 * (Real.sqrt 3 / 2)) ≤ 1 := by nlinarith
    have h75 : (7.5 : ℝ) ≤ 1 / (0.142 * (Real.sqrt 3 / 2)) := (le_div_iff₀ hu).mpr hb
    push_cast
    linarith
  · have hb : (1 : ℝ) < 8.5 * (0.142 * (Real.sqrt 3 / 2)) := by nlinarith
    have h85 : 1 / (0.142 * (Real.sqrt 3 / 2)) < 8.5 := (div_lt_iff₀ hu).mpr hb
    push_cast
    linarith

/-- Sizing the graphene crystal to the unit square requests 7 by 8 bins. -/
theorem graphene_builder_bins :
    (LatticeBuilder.new (Crystal.hexagonal 0.142)).from_size 1 1
      = (LatticeBuilder.new (Crystal.hexagonal 0.142)).from_bins 7 8 := by
  show (LatticeBuilder.new (Crystal.hexagonal 0.142)).from_bins
      (rustRound ((1 : ℝ) / (Crystal.hexagonal 0.142).spacing.dx)).toNat
      (rustRound ((1 : ℝ) / (Crystal.hexagonal 0.142).spacing.dy)).toNat = _
  rw [show (Crystal.hexagonal (0.142 : ℝ)).spacing.dx = (0.142 : ℝ) from rfl,
    show (Crystal.hexagonal (0.142 : ℝ)).spacing.dy
      = (0.142 : ℝ) * Real.sin (2 * Real.pi / 3) from rfl,
    sin_two_pi_div_three, rustRound_graphene_cols, rustRound_graphene_rows]
  rfl

/-- The graphene lattice for the unit square is the adjusted 9-by-8
hexagonal point grid. -/
theorem graphene_lattice_coords :
    (latticeFromSize (Crystal.hexagonal 0.142) 1 1).coords
      = hexPoints (Crystal.hexagonal (0.142 : ℝ)).spacing 9 8 := by
  unfold latticeFromSize
  rw [graphene_builder_bins]
  show hexPoints (Crystal.hexagonal (0.142 : ℝ)).spacing (hexAdjustNx 7) (hexAdjustNy 8) = _
  norm_num [hexAdjustNx, hexAdjustNy]

/-- The hexagonal generator always starts at the origin: column 0 of row 0
survives the vacancy filter. -/
theorem hexPoints_head (s : Spacing) (nx ny : ℕ) (hx : 0 < nx) (hy : 0 < ny) :
    (hexPoints s nx ny).head? = some (Coord.mk 0 0 0) := by
  obtain ⟨m, rfl⟩ : ∃ m, ny = m + 1 := ⟨ny - 1, by omega⟩
  obtain ⟨j, rfl⟩ : ∃ j, nx = j + 1 := ⟨nx - 1, by omega⟩
  rw [hexPoints, List.range_succ_eq_map, List.flatMap_cons, List.head?_append,
    List.range_succ_eq_map, List.filter_cons, if_pos (show hexKeep 0 0 = true from rfl),
    List.map_cons, List.head?_cons]
  simp [Option.or, gridPoint]

/-- A list whose entry 0 is known has that entry as its head. -/
theorem head?_of_getElem?_zero {α : Type} (l : List α) (a : α) (h : l[0]? = some a) :
    l.head? = some a := by
  cases l <;> simp_all

/-- A list head is also entry 0. -/
theorem getElem?_zero_of_head? {α : Type} (l : List α) (a : α) (h : l.head? = some a) :
    l[0]? = some a := by
  cases l <;> simp_all

/-- Evaluation of `create_graphene(1.0, 1.0)`: 48 atoms, and the first atom
is carbon 0 of residue 0 at `(0.071, 0.071, 0.213)` — the lattice origin
raised by the half-thickness `z0 = 0.142` plus the template offset. -/
theorem create_graphene_unit :
    (create_graphene 1 1).atoms.length = 48 ∧
    (create_graphene 1 1).atoms.head?
      = some (Atom.mk "GRPH" 0 "C" 0 (Coord.mk 0.071 0.071 0.213)) := by
  have hc : (create_graphene 1 1).atoms
      = gen_atom_list
          (((latticeFromSize (Crystal.hexagonal 0.142) 1 1).translate
            (Coord.mk 0 0 0.142)).coords)
          (ResidueBase.graphene 0.142) := rfl
  have hlc : ((latticeFromSize (Crystal.hexagonal 0.142) 1 1).translate
      (Coord.mk 0 0 0.142)).coords
      = (hexPoints (Crystal.hexagonal (0.142 : ℝ)).spacing 9 8).map
          (fun c => c.add (Coord.mk 0 0 0.142)) := by
    show (latticeFromSize (Crystal.hexagonal 0.142) 1 1).coords.map
        (fun c => c.add (Coord.mk 0 0 0.142)) = _
    rw [graphene_lattice_coords]
  have hlen : ((latticeFromSize (Crystal.hexagonal 0.142) 1 1).translate
      (Coord.mk 0 0 0.142)).coords.length = 48 := by
    rw [hlc, List.length_map]
    have h := hexPoints_length (Crystal.hexagonal (0.142 : ℝ)).spacing 9 8 (by norm_num)
    omega
  have hhead : ((latticeFromSize (Crystal.hexagonal 0.142) 1 1).translate
      (Coord.mk 0 0 0.142)).coords.head? = some (Coord.mk 0 0 0.142) := by
    rw [hlc, List.head?_map,
      hexPoints_head (Crystal.hexagonal (0.142 : ℝ)).spacing 9 8 (by norm_num) (by norm_num)]
    simp [Coord.add]
  constructor
  · rw [hc, (gen_atom_list_spec _ (ResidueBase.graphene 0.142)).1, hlen]
    rfl
  · rw [hc]
    apply head?_of_getElem?_zero
    have h0 : ((latticeFromSize (Crystal.hexagonal 0.142) 1 1).translate
        (Coord.mk 0 0 0.142)).coords[0]? = some (Coord.mk 0 0 0.142) :=
      getElem?_zero_of_head? _ _ hhead
    have ha : (ResidueBase.graphene (0.142 : ℝ)).atoms[0]?
        = some (ResidueAtom.mk "C"
            (Coord.mk ((0.142 : ℝ) / 2) ((0.142 : ℝ) / 2) ((0.142 : ℝ) / 2))) := rfl
    have h := (gen_atom_list_spec _ (ResidueBase.graphene 0.142)).2 0 0
      (Coord.mk 0 0 0.142)
      (ResidueAtom.mk "C" (Coord.mk ((0.142 : ℝ) / 2) ((0.142 : ℝ) / 2) ((0.142 : ℝ) / 2)))
      h0 ha
    rw [show (0 : ℕ) * (ResidueBase.graphene (0.142 : ℝ)).atoms.length + 0 = 0 from rfl] at h
    rw [h]
    simp only [ResidueBase.graphene, Coord.add, Option.some.injEq, Atom.mk.injEq,
      Coord.mk.injEq]
    norm_num

/-- C5, counterexample: `create_substrate((1.0, 1.0), Graphene)` succeeds
but yields 48 atoms, not 32, and its first atom sits at
`(0.071, 0.071, 0.213)`, not `(0.071, 0.071, 0.071)`: the current sources
adjust the requested 7-by-8 grid to 9-by-8 honeycomb points and raise the
lattice by the half-thickness before instantiating atoms. -/
theorem graphene_unit_counterexample :
    ∃ sys : System, create_substrate (1, 1) SubstrateType.Graphene = Except.ok sys ∧
      ¬ sys.atoms.length = 32 ∧
      ¬ sys.atoms.head?.map Atom.position = some (Coord.mk 0.071 0.071 0.071) := by
  have hok : create_substrate (1, 1) SubstrateType.Graphene
      = Except.ok (create_graphene 1 1) := by
    unfold create_substrate
    rw [if_neg (by norm_num : ¬ (((1 : ℝ), (1 : ℝ)).1 ≤ 0 ∨ ((1 : ℝ), (1 : ℝ)).2 ≤ 0))]
  obtain ⟨hlen, hhead⟩ := create_graphene_unit
  refine ⟨create_graphene 1 1, hok, by omega, ?_⟩
  rw [hhead]
  intro hcontra
  have hcontra2 : some (Atom.mk "GRPH" 0 "C" 0 (Coord.mk 0.071 0.071 0.213)).position
      = some (Coord.mk 0.071 0.071 0.071) := hcontra
  have hz := congrArg Coord.z (Option.some.inj hcontra2)
  norm_num at hz

/-- C5, amended: `create_substrate((1.0, 1.0), Graphene)` (bond length
0.142) succeeds and yields exactly 48 atoms; the first atom has residue
name `GRPH`, residue number 0, atom name `C`, atom number 0, and position
`(0.071, 0.071, 0.213)`. -/
theorem graphene_unit_spec :
    ∃ sys : System, create_substrate (1, 1) SubstrateType.Graphene = Except.ok sys ∧
      sys.atoms.length = 48 ∧
      sys.atoms.head? = some (Atom.mk "GRPH" 0 "C" 0 (Coord.mk 0.071 0.071 0.213)) := by
  have hok : create_substrate (1, 1) SubstrateType.Graphene
      = Except.ok (create_graphene 1 1) := by
    unfold create_substrate
    rw [if_neg (by norm_num : ¬ (((1 : ℝ), (1 : ℝ)).1 ≤ 0 ∨ ((1 : ℝ), (1 : ℝ)).2 ≤ 0))]
  obtain ⟨hlen, hhead⟩ := create_graphene_unit
  exact ⟨create_graphene 1 1, hok, hlen, hhead⟩

end Grafen
